import Mathlib

/-
  Verification of the RPC surface layer: a shallow embedding of the Node
  client driver (client.js), the credentials module, the interop test
  service and the credentials composition algebra, with theorems checking
  the natural-language specification against that embedding.
-/

namespace GrpcJs

/-- Status codes used by the surface layer (grpc.status), per the fixed
enumeration: OK, CANCELLED, DEADLINE_EXCEEDED, INTERNAL and the rest of the
standard set. Only the numeric values used by the claims are fixed here. -/
def statusOK : Nat := 0

/-- Status code CANCELLED. -/
def statusCANCELLED : Nat := 1

/-- Status code DEADLINE_EXCEEDED. -/
def statusDEADLINE_EXCEEDED : Nat := 4

/-- Status code INTERNAL. -/
def statusINTERNAL : Nat := 13

/-- A metadata value: text (UTF-8 string) or binary (opaque bytes, keys with
a trailing -bin carry these). Bytes are modelled as naturals. -/
inductive MetaVal where
  | text (s : String)
  | bin (bytes : List Nat)
deriving DecidableEq, Repr

/-- Modelled from the spec: the Metadata container (metadata.js is not among
the source files). An ordered multimap of (key, value) entries; keys are
case-insensitive for equality but preserved on emit (section 4.1). -/
structure Metadata where
  entries : List (String × MetaVal)
deriving DecidableEq, Repr

/-- ASCII lowercasing of one character. -/
def lowerChar (c : Char) : Char :=
  if 'A' ≤ c ∧ c ≤ 'Z' then Char.ofNat (c.toNat + 32) else c

/-- ASCII lowercasing of a key (keys are ASCII byte strings). -/
def lowerKey (s : String) : String :=
  ⟨s.data.map lowerChar⟩

/-- Case-insensitive key comparison used by the metadata container. -/
def Metadata.keyEq (a b : String) : Bool :=
  lowerKey a == lowerKey b

/-- The empty metadata collection (new Metadata()). -/
def Metadata.empty : Metadata := ⟨[]⟩

/-- Modelled from the spec: get(key) returns the ordered list of all values
under the key (empty if absent). -/
def Metadata.get (m : Metadata) (key : String) : List MetaVal :=
  (m.entries.filter (fun p => Metadata.keyEq p.1 key)).map Prod.snd

/-- Modelled from the spec: set(key, value) replaces all values under key. -/
def Metadata.set (m : Metadata) (key : String) (value : MetaVal) : Metadata :=
  ⟨(m.entries.filter (fun p => !(Metadata.keyEq p.1 key))) ++ [(key, value)]⟩

/-- Modelled from the spec: add(key, value) appends a value under the key. -/
def Metadata.add (m : Metadata) (key : String) (value : MetaVal) : Metadata :=
  ⟨m.entries ++ [(key, value)]⟩

/-- Modelled from the spec: clone() returns a fully independent copy of the
entry list. -/
def Metadata.clone (m : Metadata) : Metadata :=
  ⟨m.entries⟩

/-- Conversion from the transport core representation, a pure conversion of
the entry list (Metadata._fromCoreRepresentation). -/
def Metadata.fromCore (l : List (String × MetaVal)) : Metadata :=
  ⟨l⟩

/-- The reserved initial-metadata echo key of the interop service. -/
def ECHO_INITIAL_KEY : String := "x-grpc-test-echo-initial"

/-- The reserved trailing-metadata echo key of the interop service. -/
def ECHO_TRAILING_KEY : String := "x-grpc-test-echo-trailing-bin"

/-- The interop server's echoHeader: reads the reserved initial echo key from
the call's metadata; when at least one value is present, builds a response
metadata setting that key to the first value and sends it (modelled as `some`
of the sent metadata); otherwise sends nothing (`none`). -/
def echoHeader (callMetadata : Metadata) : Option Metadata :=
  match callMetadata.get ECHO_INITIAL_KEY with
  | [] => none
  | v :: _ => some (Metadata.empty.set ECHO_INITIAL_KEY v)

/-- The interop server's getEchoTrailer: builds a fresh response trailer and,
when the reserved trailing echo key has at least one value in the call's
metadata, sets that key to the first value. -/
def getEchoTrailer (callMetadata : Metadata) : Metadata :=
  match callMetadata.get ECHO_TRAILING_KEY with
  | [] => Metadata.empty
  | v :: _ => Metadata.empty.set ECHO_TRAILING_KEY v

/-- The response of the interop server's streamingInputCall. -/
structure StreamingInputResponse where
  aggregated_payload_size : Nat
deriving DecidableEq, Repr

/-- The interop server's handleStreamingInput: starting from 0, each data
event adds value.payload.body.length to the aggregate; the end event answers
with the aggregate. The inbound payload bodies are given as byte lists. -/
def handleStreamingInput (payloads : List (List Nat)) : StreamingInputResponse :=
  { aggregated_payload_size := payloads.foldl (fun acc body => acc + body.length) 0 }

/-- Call credentials: a leaf carries a metadata-producing generator
(identified abstractly by an id); comp is the binary composition whose
generator runs both and merges their metadata. -/
inductive CallCred where
  | base (id : Nat)
  | comp (a b : CallCred)
deriving DecidableEq, Repr

/-- Channel credentials: the insecure sentinel, an SSL credential
(identified abstractly by an id), or a composite of a channel credential
and a call credential. -/
inductive ChanCred where
  | insecure
  | ssl (id : Nat)
  | composite (chan : ChanCred) (call : CallCred)
deriving DecidableEq, Repr

/-- Modelled from the spec: the isComposable flag is true for secure
variants and false for the insecure sentinel; a composite remains a channel
credential but is itself non-composable (sections 3 and 4.3). -/
def ChanCred.isComposable : ChanCred → Bool
  | .insecure => false
  | .ssl _ => true
  | .composite _ _ => false

/-- The two invalid-argument error kinds surfaced by credential
composition: a missing argument, and composing a non-composable channel
credential. -/
inductive CredError where
  | nullArg
  | notComposable
deriving DecidableEq, Repr

/-- Modelled from the spec: composeChannel attaches a call credential to a
channel credential; either argument being absent is an invalid-argument
error, the channel credential must be composable, and the result is a
(non-composable) composite (section 4.3, mirrored by the
ChannelCredentialsTest assertions). -/
def composeChannel : Option ChanCred → Option CallCred → Except CredError ChanCred
  | none, _ => .error .nullArg
  | some _, none => .error .nullArg
  | some c, some k =>
      if c.isComposable then .ok (ChanCred.composite c k) else .error .notComposable

/-- Modelled from the spec: composeCall combines two call credentials into
one whose generator runs both generators and merges their metadata. -/
def composeCall (a b : CallCred) : CallCred :=
  CallCred.comp a b

/-- The credentials module's combineChannelCredentials: starting from the
given channel credential, the loop repeatedly replaces the current
credential with current.compose(next call credential); each compose step is
the checked composeChannel above, and a thrown error propagates out of the
loop. The variadic arguments are the head channel credential plus the list
of call credentials. -/
def combineChannelCredentials (channel_credential : ChanCred) (ks : List CallCred) :
    Except CredError ChanCred :=
  ks.foldl (fun current k => current.bind (fun c => composeChannel (some c) (some k)))
    (.ok channel_credential)

/-- The credentials module's combineCallCredentials: starting from the first
call credential, the loop repeatedly composes the current credential with
the next one. -/
def combineCallCredentials (k : CallCred) (ks : List CallCred) : CallCred :=
  ks.foldl composeCall k

/-- Depth of channel-credential nesting: how many composeChannel layers wrap
the underlying leaf channel credential. -/
def ChanCred.chanDepth : ChanCred → Nat
  | .insecure => 0
  | .ssl _ => 0
  | .composite c _ => c.chanDepth + 1

/-- The status record of a completed batch in core representation: a code, a
details string, and the trailing metadata entry list. -/
structure CoreStatus where
  code : Nat
  details : String
  metadata : List (String × MetaVal)
deriving DecidableEq, Repr

/-- The response object delivered to a batch completion callback: the
status, the RECV_MESSAGE payload (none models a null read, i.e. end of
stream), and the RECV_INITIAL_METADATA entry list. -/
structure BatchResponse where
  status : CoreStatus
  read : Option (List Nat)
  metadata : List (String × MetaVal)
deriving DecidableEq, Repr

/-- The status object as seen by the driver after conversion: the
replacement status built on a deserialisation failure has no metadata
property, hence the Option. -/
structure StatusRec where
  code : Nat
  details : String
  metadata : Option Metadata
deriving DecidableEq, Repr

/-- The error object handed to the driver callback: an Error whose message
is the string given to the constructor, with code and metadata properties
attached. -/
structure JsError where
  message : String
  code : Nat
  metadata : Option Metadata
deriving DecidableEq, Repr

/-- How the driver invokes the user callback on batch completion:
with the raw batch error, with an error object, or with the deserialised
value. -/
inductive CallbackCall (α : Type) where
  | batchErr
  | err (e : JsError)
  | value (v : α)
deriving DecidableEq, Repr

/-- The single-batch completion handler of makeUnaryRequest (and, textually
identical, the recv-batch handler of makeClientStreamRequest). It converts
the trailing metadata, then: on an OK code with a batch error it passes the
batch error through and returns early (no status event); on an OK code it
deserialises the read payload, and if deserialisation throws it replaces the
status with code INTERNAL and details "Failed to parse server response"
(a record without metadata); finally, a non-OK status code produces an error
object built from the ORIGINAL response.status.details with the current
status's code and metadata, and an OK code passes the deserialised value.
The second component is the status event emitted afterwards. -/
def unaryBatchHandler {α : Type} (deserialize : Option (List Nat) → Except Unit α)
    (err : Bool) (response : BatchResponse) : CallbackCall α × Option StatusRec :=
  let status : StatusRec :=
    { code := response.status.code, details := response.status.details,
      metadata := some (Metadata.fromCore response.status.metadata) }
  if status.code = statusOK then
    if err then (.batchErr, none)
    else
      match deserialize response.read with
      | .ok v => (.value v, some status)
      | .error _ =>
          let status2 : StatusRec :=
            { code := statusINTERNAL, details := "Failed to parse server response",
              metadata := none }
          (.err { message := response.status.details, code := status2.code,
                  metadata := status2.metadata }, some status2)
  else
    (.err { message := response.status.details, code := status.code,
            metadata := status.metadata }, some status)

/-- The batch built by the writable stream's _write: the chunk is
serialised; when the encoding argument is a finite number it is attached to
the message as write flags; the message fills the SEND_MESSAGE slot. -/
structure WriteBatch where
  sendMessage : List Nat
  grpcWriteFlags : Option Int
deriving DecidableEq, Repr

/-- Builds the _write batch. The encoding argument is modelled as `some n`
exactly when a finite number was passed. -/
def clientWriteBatch {α : Type} (serialize : α → List Nat) (chunk : α)
    (encoding : Option Int) : WriteBatch :=
  { sendMessage := serialize chunk, grpcWriteFlags := encoding }

/-- What the _write completion handler does with the stream.Writable
callback: which invocation happens and with which error argument. -/
structure WriteCompletion where
  callbackInvoked : Bool
  callbackError : Option String
deriving DecidableEq, Repr

/-- The completion handler of the SEND_MESSAGE batch in _write: on a batch
error it returns without calling the write callback (stopping the stream by
failing to call it); on success it calls the callback with no error. -/
def writeBatchCompletion (err : Bool) : WriteCompletion :=
  if err then { callbackInvoked := false, callbackError := none }
  else { callbackInvoked := true, callbackError := none }

/-- An absolute deadline: a finite timestamp (a date or numeric timestamp,
in milliseconds) or Infinity. -/
inductive Deadline where
  | finite (ms : Int)
  | infinity
deriving DecidableEq, Repr

/-- The per-call options map recognised by getCall; every key is optional. -/
structure CallOptions where
  deadline : Option Deadline
  host : Option String
  parent : Option Nat
  propagate_flags : Option Nat
  credentials : Option CallCred
deriving DecidableEq, Repr

/-- The call object built by getCall: the grpc.Call constructor arguments
plus the per-call credentials override when one was supplied. -/
structure CallHandle where
  method : String
  deadline : Deadline
  host : Option String
  parent : Option Nat
  propagate_flags : Option Nat
  credentials : Option CallCred
deriving DecidableEq, Repr

/-- The client surface's getCall: reads deadline, host, parent call,
propagation flags and credentials from the options map when one is given;
an undefined deadline becomes Infinity; everything else is passed through
unchanged, and credentials are set on the call only when supplied. -/
def getCall (method : String) (options : Option CallOptions) : CallHandle :=
  let deadline0 := options.bind (fun o => o.deadline)
  let host := options.bind (fun o => o.host)
  let parent := options.bind (fun o => o.parent)
  let propagate_flags := options.bind (fun o => o.propagate_flags)
  let credentials := options.bind (fun o => o.credentials)
  let deadline := match deadline0 with
    | none => Deadline.infinity
    | some d => d
  { method := method, deadline := deadline, host := host, parent := parent,
    propagate_flags := propagate_flags, credentials := credentials }

/-- A store of live Metadata objects, used to express object identity and
mutation: references are indices into the list, and mutating one object
leaves the others untouched. -/
structure MDStore where
  objects : List Metadata
deriving DecidableEq, Repr

/-- Allocate a fresh Metadata object and return its reference. -/
def MDStore.alloc (s : MDStore) (m : Metadata) : MDStore × Nat :=
  (⟨s.objects ++ [m]⟩, s.objects.length)

/-- Read the object behind a reference. -/
def MDStore.read (s : MDStore) (r : Nat) : Metadata :=
  s.objects.getD r Metadata.empty

/-- Overwrite the object behind a reference. -/
def MDStore.write (s : MDStore) (r : Nat) (m : Metadata) : MDStore :=
  ⟨s.objects.set r m⟩

/-- metadata.clone() on a reference: allocates a fresh object holding a copy
of the entries. -/
def MDStore.cloneRef (s : MDStore) (r : Nat) : MDStore × Nat :=
  s.alloc ((s.read r).clone)

/-- A set mutation performed through a reference. -/
def MDStore.setRef (s : MDStore) (r : Nat) (key : String) (value : MetaVal) : MDStore :=
  s.write r ((s.read r).set key value)

/-- The metadata normalisation fragment shared verbatim by all four request
drivers (makeUnaryRequest, makeClientStreamRequest, makeServerStreamRequest,
makeBidiStreamRequest): when the caller passed no metadata (null or
undefined), a fresh empty Metadata is created; otherwise the caller's object
is cloned, and the call only ever uses the clone. -/
def prepareCallMetadata (s : MDStore) (callerRef : Option Nat) : MDStore × Nat :=
  match callerRef with
  | none => s.alloc Metadata.empty
  | some r => s.cloneRef r

/-- The attributes of one entry of the methods map given to
makeClientConstructor. -/
structure MethodAttrs where
  path : String
  requestStream : Bool
  responseStream : Bool
deriving DecidableEq, Repr

/-- The shape dispatch of makeClientConstructor: the
(requestStream, responseStream) pair selects the requester maker. -/
def methodType (attrs : MethodAttrs) : String :=
  if attrs.requestStream then
    if attrs.responseStream then "bidi" else "client_stream"
  else
    if attrs.responseStream then "server_stream" else "unary"

/-- Whether a method name starts with the reserved character: its first
character is a dollar sign. -/
def startsWithDollar (name : String) : Bool :=
  match name.data with
  | [] => false
  | c :: _ => c == '$'

/-- makeClientConstructor's iteration over the methods map: a method name
starting with the reserved character throws "Method names cannot start
with $" and no constructor is produced; otherwise each entry defines one
client method, recorded as the pair of its name and its shape. -/
def makeClientConstructor : List (String × MethodAttrs) → Except String (List (String × String))
  | [] => .ok []
  | (name, attrs) :: rest =>
      if startsWithDollar name then .error "Method names cannot start with $"
      else
        match makeClientConstructor rest with
        | .error e => .error e
        | .ok others => .ok ((name, methodType attrs) :: others)

/-- An options object is modelled as a partial map from keys to string
values; property assignment replaces the value under the key. -/
def objSet (o : String → Option String) (key value : String) : String → Option String :=
  fun k => if k = key then some value else o k

/-- The Client constructor's option handling: a missing options argument
becomes an empty object, and then the grpc.primary_user_agent key is
assigned the library's own user-agent string built from its version. -/
def clientChannelOptions (options : Option (String → Option String)) (version : String) :
    String → Option String :=
  objSet (options.getD (fun _ => none)) "grpc.primary_user_agent" ("grpc-node/" ++ version)

/- Helper lemmas (shared; not tied to a single claim). -/

theorem keyEq_self (s : String) : Metadata.keyEq s s = true := by
  simp [Metadata.keyEq]

theorem get_set_fresh (k : String) (v : MetaVal) :
    (Metadata.empty.set k v).get k = [v] := by
  simp [Metadata.empty, Metadata.set, Metadata.get, List.filter, keyEq_self]

theorem foldl_add_length (l : List (List Nat)) (acc : Nat) :
    l.foldl (fun a b => a + b.length) acc = acc + (l.map List.length).sum := by
  induction l generalizing acc with
  | nil => simp
  | cons hd tl ih => simp [List.foldl, ih, Nat.add_assoc]

theorem foldl_compose_error (e : CredError) (ks : List CallCred) :
    ks.foldl (fun (current : Except CredError ChanCred) k =>
      current.bind (fun c => composeChannel (some c) (some k))) (.error e) = .error e := by
  induction ks with
  | nil => rfl
  | cons k ks ih => exact ih

/- Claim theorems. -/

/-- C1 (code_bug evidence): on an OK status whose received message fails to
deserialise, the unary completion handler (also the client-streaming recv
handler) emits a status event carrying code INTERNAL and details
"Failed to parse server response", but the error object actually handed to
the callback is built from the stale original response.status.details (here
the empty string of the OK status), not from the replacement details, so the
surfaced error's message differs from the one the specification states. -/
theorem unary_parse_failure_stale_details :
    unaryBatchHandler (fun _ => (Except.error () : Except Unit Nat)) false
        { status := { code := statusOK, details := "", metadata := [("k", MetaVal.text "v")] },
          read := some [0], metadata := [] }
      = (CallbackCall.err { message := "", code := statusINTERNAL, metadata := none },
         some { code := statusINTERNAL, details := "Failed to parse server response",
                metadata := none })
    ∧ ("" : String) ≠ "Failed to parse server response" := by
  exact ⟨by decide, by decide⟩

/-- C2: composing the insecure channel credential with any call credential
fails with an invalid-argument error; composing with either argument absent
fails with an invalid-argument error; and any successful composeChannel
yields a credential whose isComposable flag is false. -/
theorem composeChannel_algebra (c : ChanCred) (k : CallCred) :
    composeChannel (some ChanCred.insecure) (some k) = .error .notComposable
    ∧ composeChannel (some c) none = .error .nullArg
    ∧ composeChannel none (some k) = .error .nullArg
    ∧ ∀ cc, composeChannel (some c) (some k) = .ok cc → cc.isComposable = false := by
  refine ⟨rfl, rfl, rfl, ?_⟩
  intro cc h
  by_cases hc : c.isComposable
  · simp [composeChannel, hc] at h
    rw [← h]
    rfl
  · simp [composeChannel, hc] at h

/-- Witness for C2 at concrete credentials. -/
theorem composeChannel_algebra_witness :
    composeChannel (some ChanCred.insecure) (some (CallCred.base 0)) = .error .notComposable
    ∧ (ChanCred.composite (ChanCred.ssl 0) (CallCred.base 0)).isComposable = false := by
  refine ⟨(composeChannel_algebra (ChanCred.ssl 0) (CallCred.base 0)).1, ?_⟩
  exact (composeChannel_algebra (ChanCred.ssl 0) (CallCred.base 0)).2.2.2
    (ChanCred.composite (ChanCred.ssl 0) (CallCred.base 0)) rfl

/-- C3 (counterexample): with two call credentials, the variadic
combineChannelCredentials does not produce the credential
composeChannel(c, composeCall(k1, k2)): the fold first forms
composeChannel(c, k1) and then attempts to compose that (non-composable)
composite with k2 — exactly the forbidden chain — so it fails, while the
spec's reduced form succeeds. -/
theorem combineChannelCredentials_chain_counterexample :
    combineChannelCredentials (ChanCred.ssl 0) [CallCred.base 1, CallCred.base 2]
      = .error .notComposable
    ∧ composeChannel (some (ChanCred.ssl 0))
        (some (combineCallCredentials (CallCred.base 1) [CallCred.base 2]))
      = .ok (ChanCred.composite (ChanCred.ssl 0) (CallCred.comp (CallCred.base 1) (CallCred.base 2)))
    ∧ combineChannelCredentials (ChanCred.ssl 0) [CallCred.base 1]
      = .ok (ChanCred.composite (ChanCred.ssl 0) (CallCred.base 1))
    ∧ composeChannel (some (ChanCred.composite (ChanCred.ssl 0) (CallCred.base 1)))
        (some (CallCred.base 2))
      = .error .notComposable
    ∧ combineChannelCredentials (ChanCred.ssl 0) [CallCred.base 1, CallCred.base 2]
      ≠ composeChannel (some (ChanCred.ssl 0))
          (some (combineCallCredentials (CallCred.base 1) [CallCred.base 2])) := by
  refine ⟨rfl, rfl, rfl, rfl, ?_⟩
  intro h
  exact Except.noConfusion h

/-- C3 (amended): combineChannelCredentials left-folds the binary compose
over the call credential arguments. It agrees with the spec's reduced form
composeChannel(c, composeCall(...)) for at most one call credential, but for
two or more it attempts the chained composition, whose intermediate result
is non-composable, so it surfaces the invalid-argument error instead; the
reduced form itself succeeds and adds exactly one channel-composition
layer. -/
theorem combineChannelCredentials_folds_compose (c : ChanCred) (k1 k2 : CallCred)
    (ks : List CallCred) (hc : c.isComposable = true) :
    combineChannelCredentials c [] = .ok c
    ∧ combineChannelCredentials c [k1]
        = composeChannel (some c) (some (combineCallCredentials k1 []))
    ∧ combineChannelCredentials c (k1 :: k2 :: ks) = .error .notComposable
    ∧ ∃ r, composeChannel (some c) (some (combineCallCredentials k1 (k2 :: ks))) = .ok r
        ∧ r.chanDepth = c.chanDepth + 1 := by
  refine ⟨rfl, rfl, ?_, ?_⟩
  · show List.foldl _ _ _ = _
    simp only [List.foldl]
    rw [show ((Except.ok c : Except CredError ChanCred).bind
        (fun cc => composeChannel (some cc) (some k1))) = composeChannel (some c) (some k1) from rfl]
    rw [show composeChannel (some c) (some k1) = .ok (ChanCred.composite c k1) by
      simp [composeChannel, hc]]
    rw [show ((Except.ok (ChanCred.composite c k1) : Except CredError ChanCred).bind
        (fun cc => composeChannel (some cc) (some k2))) = Except.error CredError.notComposable from rfl]
    exact foldl_compose_error CredError.notComposable ks
  · refine ⟨ChanCred.composite c (combineCallCredentials k1 (k2 :: ks)), ?_, rfl⟩
    simp [composeChannel, hc]

/-- Witness for C3's amended theorem at a concrete composable credential. -/
theorem combineChannelCredentials_folds_compose_witness :
    combineChannelCredentials (ChanCred.ssl 3) [CallCred.base 4, CallCred.base 5]
      = .error .notComposable :=
  (combineChannelCredentials_folds_compose (ChanCred.ssl 3) (CallCred.base 4)
    (CallCred.base 5) [] rfl).2.2.1

/-- C4: if any method name in the map starts with the reserved character,
makeClientConstructor throws the invalid-argument error; if none does, a
client method is defined for each entry of the map, with the shape selected
by its streaming flags. -/
theorem makeClientConstructor_reserved (methods : List (String × MethodAttrs)) :
    ((∃ p ∈ methods, startsWithDollar p.1 = true) →
        makeClientConstructor methods = .error "Method names cannot start with $")
    ∧ ((∀ p ∈ methods, startsWithDollar p.1 = false) →
        makeClientConstructor methods
          = .ok (methods.map (fun p => (p.1, methodType p.2)))) := by
  induction methods with
  | nil =>
    refine ⟨?_, ?_⟩
    · rintro ⟨p, hp, _⟩
      cases hp
    · intro _
      rfl
  | cons hd tl ih =>
    obtain ⟨name, attrs⟩ := hd
    refine ⟨?_, ?_⟩
    · rintro ⟨p, hp, hdollar⟩
      by_cases hname : startsWithDollar name
      · simp [makeClientConstructor, hname]
      · rcases List.mem_cons.mp hp with h | h
        · exact absurd (h ▸ hdollar) (by simp [hname])
        · have herr := ih.1 ⟨p, h, hdollar⟩
          simp [makeClientConstructor, hname, herr]
    · intro hall
      have hname : startsWithDollar name = false :=
        hall (name, attrs) (List.mem_cons_self _ _)
      have hok := ih.2 (fun p hp => hall p (List.mem_cons_of_mem _ hp))
      simp [makeClientConstructor, hname, hok]

/-- Witness for C4: a reserved name is rejected and a clean map defines one
method per entry. -/
theorem makeClientConstructor_reserved_witness :
    makeClientConstructor
        [("$foo", { path := "/p", requestStream := false, responseStream := false })]
      = .error "Method names cannot start with $"
    ∧ makeClientConstructor
        [("emptyCall", { path := "/p", requestStream := false, responseStream := false }),
         ("fullDuplexCall", { path := "/q", requestStream := true, responseStream := true })]
      = .ok [("emptyCall", "unary"), ("fullDuplexCall", "bidi")] := by
  refine ⟨?_, ?_⟩
  · exact (makeClientConstructor_reserved _).1
      ⟨("$foo", { path := "/p", requestStream := false, responseStream := false }),
       List.mem_cons_self _ _, rfl⟩
  · exact (makeClientConstructor_reserved _).2 (by
      intro p hp
      rcases List.mem_cons.mp hp with rfl | h
      · rfl
      · rcases List.mem_cons.mp h with rfl | h2
        · rfl
        · cases h2)

/-- C5: the SEND_MESSAGE batch completion handler of the client write path
never raises an error through the write path, and on a failed batch it drops
the write silently: the write completion callback is not invoked; on success
the callback is invoked with no error. -/
theorem write_error_dropped_silently :
    (writeBatchCompletion true).callbackInvoked = false
    ∧ (writeBatchCompletion true).callbackError = none
    ∧ (writeBatchCompletion false).callbackInvoked = true
    ∧ (writeBatchCompletion false).callbackError = none := by
  decide

/-- C6 (counterexample): a caller-supplied primary_user_agent value is not
preserved and not prepended: constructing a client with the option set to
"my-agent/1.0" leaves the channel option equal to the library's own string,
which differs both from the caller's value and from the prepended form. -/
theorem primary_user_agent_counterexample :
    clientChannelOptions
        (some (fun k => if k = "grpc.primary_user_agent" then some "my-agent/1.0" else none))
        "0.11.1" "grpc.primary_user_agent"
      = some "grpc-node/0.11.1"
    ∧ ("grpc-node/0.11.1" : String) ≠ "my-agent/1.0"
    ∧ ("grpc-node/0.11.1" : String) ≠ "my-agent/1.0 " ++ "grpc-node/0.11.1" := by
  exact ⟨rfl, by decide, by decide⟩

/-- C6 (amended): the Client constructor unconditionally overwrites the
grpc.primary_user_agent channel option with the library's own user-agent
string grpc-node/(version), whatever the caller supplied. -/
theorem primary_user_agent_always_overwritten
    (options : Option (String → Option String)) (version : String) :
    clientChannelOptions options version "grpc.primary_user_agent"
      = some ("grpc-node/" ++ version) := by
  simp [clientChannelOptions, objSet]

/-- C7: for any finite sequence of inbound payloads, streamingInputCall
responds with aggregated_payload_size equal to the sum of the payload byte
lengths (0 for the empty sequence). -/
theorem streamingInputCall_aggregation (payloads : List (List Nat)) :
    (handleStreamingInput payloads).aggregated_payload_size
      = (payloads.map List.length).sum := by
  simp [handleStreamingInput, foldl_add_length]

/-- C8: when the inbound metadata has at least one value under the reserved
initial echo key, the server sends initial response metadata carrying that
key with the same (first) value, and when it has none, nothing is sent;
likewise the trailer echoes the reserved trailing key's value exactly when
one is present, and is empty otherwise. -/
theorem metadata_echo_convention (md : Metadata) (v : MetaVal) (vs : List MetaVal) :
    (md.get ECHO_INITIAL_KEY = v :: vs →
        ∃ rm, echoHeader md = some rm ∧ rm.get ECHO_INITIAL_KEY = [v])
    ∧ (md.get ECHO_INITIAL_KEY = [] → echoHeader md = none)
    ∧ (md.get ECHO_TRAILING_KEY = v :: vs →
        (getEchoTrailer md).get ECHO_TRAILING_KEY = [v])
    ∧ (md.get ECHO_TRAILING_KEY = [] → getEchoTrailer md = Metadata.empty) := by
  refine ⟨?_, ?_, ?_, ?_⟩
  · intro h
    exact ⟨Metadata.empty.set ECHO_INITIAL_KEY v, by simp [echoHeader, h], get_set_fresh _ _⟩
  · intro h
    simp [echoHeader, h]
  · intro h
    simp [getEchoTrailer, h, get_set_fresh]
  · intro h
    simp [getEchoTrailer, h]

/-- Witness for C8 at the interop test values: a text value under the
initial echo key and the 0xABABAB binary value under the trailing key. -/
theorem metadata_echo_convention_witness :
    (∃ rm, echoHeader ⟨[(ECHO_INITIAL_KEY, MetaVal.text "test_initial_metadata_value")]⟩
        = some rm ∧ rm.get ECHO_INITIAL_KEY = [MetaVal.text "test_initial_metadata_value"])
    ∧ (getEchoTrailer ⟨[(ECHO_TRAILING_KEY, MetaVal.bin [171, 171, 171])]⟩).get
        ECHO_TRAILING_KEY = [MetaVal.bin [171, 171, 171]] := by
  refine ⟨?_, ?_⟩
  · exact (metadata_echo_convention
      ⟨[(ECHO_INITIAL_KEY, MetaVal.text "test_initial_metadata_value")]⟩
      (MetaVal.text "test_initial_metadata_value") []).1 (by decide)
  · exact (metadata_echo_convention
      ⟨[(ECHO_TRAILING_KEY, MetaVal.bin [171, 171, 171])]⟩
      (MetaVal.bin [171, 171, 171]) []).2.2.1 (by decide)

/-- C9: a call created with no options map, or with an options map holding
no deadline entry, gets deadline Infinity; a caller-supplied deadline is
passed through to the call unchanged. -/
theorem getCall_deadline_default (method : String) (options : Option CallOptions) :
    (options = none → (getCall method options).deadline = Deadline.infinity)
    ∧ (∀ o, options = some o → o.deadline = none →
        (getCall method options).deadline = Deadline.infinity)
    ∧ (∀ o d, options = some o → o.deadline = some d →
        (getCall method options).deadline = d) := by
  refine ⟨?_, ?_, ?_⟩
  · rintro rfl
    rfl
  · rintro o rfl hd
    simp [getCall, hd]
  · rintro o d rfl hd
    simp [getCall, hd]

/-- Witness for C9 at concrete option maps. -/
theorem getCall_deadline_default_witness :
    (getCall "/m" none).deadline = Deadline.infinity
    ∧ (getCall "/m" (some { deadline := none, host := none, parent := none, propagate_flags := none, credentials := none })).deadline = Deadline.infinity
    ∧ (getCall "/m" (some { deadline := some (Deadline.finite 5), host := none, parent := none, propagate_flags := none, credentials := none })).deadline = Deadline.finite 5 := by
  refine ⟨?_, ?_, ?_⟩
  · exact (getCall_deadline_default "/m" none).1 rfl
  · exact (getCall_deadline_default "/m" _).2.1 _ rfl rfl
  · exact (getCall_deadline_default "/m" _).2.2 _ _ rfl rfl

/-- C10: the shared metadata-normalisation fragment of the four request
drivers clones the caller's metadata object: the call's reference is a
different object, holding an equal copy, and no subsequent mutation of the
call's copy changes what the caller's object holds. -/
theorem caller_metadata_preserved (s : MDStore) (r : Nat) (h : r < s.objects.length) :
    ((prepareCallMetadata s (some r)).2 ≠ r)
    ∧ ((prepareCallMetadata s (some r)).1.read r = s.read r)
    ∧ ((prepareCallMetadata s (some r)).1.read (prepareCallMetadata s (some r)).2
        = s.read r)
    ∧ (∀ key value,
        ((prepareCallMetadata s (some r)).1.setRef (prepareCallMetadata s (some r)).2
            key value).read r
          = s.read r) := by
  refine ⟨Nat.ne_of_gt h, ?_, ?_, ?_⟩
  · show (s.objects ++ [(s.read r).clone]).getD r Metadata.empty = _
    exact List.getD_append _ _ _ _ h
  · show (s.objects ++ [(s.read r).clone]).getD s.objects.length Metadata.empty = _
    rw [List.getD_append_right _ _ _ _ (Nat.le_refl _)]
    simp [Metadata.clone, MDStore.read]
  · intro key value
    show ((s.objects ++ [(s.read r).clone]).set s.objects.length _).getD r Metadata.empty = _
    rw [List.getD_eq_getElem?_getD, List.getElem?_set_ne (Nat.ne_of_gt h)]
    rw [List.getElem?_append_left (by simpa using h)]
    simp [MDStore.read, List.getD_eq_getElem?_getD]

/-- Witness for C10 at a concrete one-object store. -/
theorem caller_metadata_preserved_witness :
    ((prepareCallMetadata ⟨[⟨[("a", MetaVal.text "b")]⟩]⟩ (some 0)).1.setRef
        (prepareCallMetadata ⟨[⟨[("a", MetaVal.text "b")]⟩]⟩ (some 0)).2
        "a" (MetaVal.text "z")).read 0
      = MDStore.read ⟨[⟨[("a", MetaVal.text "b")]⟩]⟩ 0
    ∧ (prepareCallMetadata ⟨[⟨[("a", MetaVal.text "b")]⟩]⟩ (some 0)).2 ≠ 0 := by
  refine ⟨?_, ?_⟩
  · exact (caller_metadata_preserved ⟨[⟨[("a", MetaVal.text "b")]⟩]⟩ 0 (by decide)).2.2.2
      "a" (MetaVal.text "z")
  · exact (caller_metadata_preserved ⟨[⟨[("a", MetaVal.text "b")]⟩]⟩ 0 (by decide)).1

end GrpcJs
